import Mathlib

/-
  Shallow embedding of the pw_unit_test framework
  (src/pw_unit_test/public/pw_unit_test/framework.h).

  The header defines the Framework singleton, the TestInfo registry records,
  the CurrentTestExpect expectation evaluator and the EXPECT_* / ASSERT_*
  macro family.  The event handler dispatch (framework.cc: RunAllTests,
  RegisterTest, StartTest, EndTest, ExpectationResult) is not part of the
  given sources; those operations are modelled from the spec where noted.

  Events dispatched to the registered event handler are modelled as an
  explicit list of `Event` values emitted by each operation.
-/

namespace PwUnitTest

/-- Result of a test case (pass/fail), from the event-handler interface.
Modelled from the spec: the event-handler header is not among the sources;
`TestResult::kSuccess` is the value `current_result_` starts with. -/
inductive TestResult where
  | kSuccess
  | kFailure
deriving DecidableEq, Repr

/-- `RunTestsSummary`: running totals of passed and failed tests for one run. -/
structure RunTestsSummary where
  passed_tests : Nat
  failed_tests : Nat
deriving DecidableEq, Repr

/-- Events dispatched to the event handler during a run.
Modelled from the spec interface: test start, test end (with outcome), and
expectation outcome (description string, source line, success flag). -/
inductive Event where
  | testStart (suite name file : String)
  | testEnd (suite name file : String) (result : TestResult)
  | expectationResult (expression : String) (line : Nat) (success : Bool)
deriving DecidableEq, Repr

/-- The mutable state of the `Framework` singleton that the claims concern:
the in-flight test outcome `current_result_`, the per-run totals
`run_tests_summary_`, and the `exit_status_`.  (The `current_test_` pointer,
the event-handler pointer and the raw memory pool are not needed by any
claim's statement; events are returned explicitly by each operation.) -/
structure Framework where
  current_result : TestResult
  run_tests_summary : RunTestsSummary
  exit_status : Int
deriving DecidableEq, Repr

/-- The `constexpr Framework()` constructor: success result, zeroed summary,
zero exit status. -/
def Framework.init : Framework :=
  { current_result := TestResult.kSuccess
  , run_tests_summary := { passed_tests := 0, failed_tests := 0 }
  , exit_status := 0 }

/-- Modelled from the spec: `Framework::ExpectationResult` is declared in the
header but defined in a source file not among the given sources.  Per the
spec, evaluating an expectation notifies the Event Reporter of the outcome
(description string, source line, success flag) and marks the current test's
accumulated outcome as failed if the predicate returned false. -/
def Framework.expectationResult (fw : Framework) (expression : String)
    (line : Nat) (success : Bool) : Framework × List Event :=
  ( { fw with current_result :=
        if success then fw.current_result else TestResult.kFailure }
  , [Event.expectationResult expression line success] )

/-- `Framework::CurrentTestExpect` (from the header): applies
`expectation(lhs, rhs)`, reports the result via `ExpectationResult` with the
expression string and line, and returns the boolean result. -/
def Framework.currentTestExpect {Lhs Rhs : Type} (fw : Framework)
    (expectation : Lhs → Rhs → Bool) (lhs : Lhs) (rhs : Rhs)
    (expression : String) (line : Nat) : Bool × Framework × List Event :=
  let result := expectation lhs rhs
  let (fw', events) := fw.expectationResult expression line result
  (result, fw', events)

/-- The expression string built by `_PW_TEST_EXPECT`:
`#lhs " " expectation_string " " #rhs`. -/
def expectationExpression (lhsStr expectationString rhsStr : String) : String :=
  lhsStr ++ " " ++ expectationString ++ " " ++ rhsStr

/-- The lambda of `_PW_TEST_TRUE`: converts its first argument to `bool` and
ignores its second argument.  `toBool` stands for `static_cast<bool>` at the
operand's type. -/
def pwTestTruePred {T : Type} (toBool : T → Bool) : T → Bool → Bool :=
  fun arg _ => toBool arg

/-- The lambda of `_PW_TEST_FALSE`: negation of the `bool` conversion of its
first argument; the second argument is ignored. -/
def pwTestFalsePred {T : Type} (toBool : T → Bool) : T → Bool → Bool :=
  fun arg _ => !(toBool arg)

/-- `_PW_TEST_TRUE(expect_or_assert, expr)` evaluation step: the macro passes
`expr` as lhs, the literal `true` as rhs, the bool-conversion lambda, and the
string "is", so the description is `#expr " is true"`. -/
def pwTestTrue {T : Type} (fw : Framework) (toBool : T → Bool) (expr : T)
    (exprStr : String) (line : Nat) : Bool × Framework × List Event :=
  fw.currentTestExpect (pwTestTruePred toBool) expr true
    (expectationExpression exprStr "is" "true") line

/-- `_PW_TEST_FALSE(expect_or_assert, expr)` evaluation step: `expr` as lhs,
the literal `false` as rhs, the negated bool-conversion lambda, and "is". -/
def pwTestFalse {T : Type} (fw : Framework) (toBool : T → Bool) (expr : T)
    (exprStr : String) (line : Nat) : Bool × Framework × List Event :=
  fw.currentTestExpect (pwTestFalsePred toBool) expr false
    (expectationExpression exprStr "is" "false") line

/-- Assertion strength: `_PW_TEST_EXPECT` (non-fatal) or `_PW_TEST_ASSERT`
(fatal). -/
inductive Strength where
  | expect
  | assert
deriving DecidableEq, Repr

/-- One statement of a test body.  A `check` statement is a use of an
`EXPECT_*` or `ASSERT_*` macro; `passes` stands for the value
`expectation(lhs, rhs)` the macro's predicate computes on its operands, and
`expression`/`line` are the description string and `__LINE__` passed to
`CurrentTestExpect`.  An `action` statement is any other statement of the
body; its `tag` lets a proof observe whether it executed. -/
inductive Stmt where
  | check (strength : Strength) (passes : Bool) (expression : String) (line : Nat)
  | action (tag : Nat)
deriving DecidableEq, Repr

/-- The predicate shape a `check` statement hands to `CurrentTestExpect`:
applied to the precomputed comparison outcome it returns that outcome. -/
def checkPred : Bool → Unit → Bool := fun p _ => p

/-- Executes the statements of a test body in order, threading the framework
state.  A check runs `Framework::CurrentTestExpect` (the `_PW_TEST_EXPECT`
expansion); if it was an `_PW_TEST_ASSERT` expansion and the result is false,
the body returns immediately (`if (!...) { return; }`), skipping the rest.
Returns the final state, the events emitted, and the tags of the `action`
statements that actually executed. -/
def runStmts : Framework → List Stmt → Framework × List Event × List Nat
  | fw, [] => (fw, [], [])
  | fw, Stmt.action tag :: rest =>
      let (fw', events, tags) := runStmts fw rest
      (fw', events, tag :: tags)
  | fw, Stmt.check strength passes expression line :: rest =>
      let (result, fw', events) :=
        fw.currentTestExpect checkPred passes () expression line
      match strength with
      | Strength.expect =>
          let (fw2, events2, tags) := runStmts fw' rest
          (fw2, events ++ events2, tags)
      | Strength.assert =>
          if result then
            let (fw2, events2, tags) := runStmts fw' rest
            (fw2, events ++ events2, tags)
          else
            (fw', events, [])

/-- `TestInfo`: the statically allocated record for one declared test case.
The `run` function pointer (an instantiation of
`Framework::CreateAndRunTest`) is represented by the statements of the
test's body. -/
structure TestInfo where
  test_suite_name : String
  test_name : String
  file_name : String
  run : List Stmt
deriving DecidableEq, Repr

/-- Modelled from the spec: `Framework::RegisterTest` is declared in the
header but defined in a source file not among the given sources.  Per the
spec, registration inserts the entry at the head of the registry list. -/
def Framework.registerTest (tests : List TestInfo) (test : TestInfo) :
    List TestInfo :=
  test :: tests

/-- The `TestInfo` constructor: stores the suite name, case name, file name
and runner, and registers itself with the framework
(`Framework::Get().RegisterTest(this)`). -/
def TestInfo.construct (tests : List TestInfo)
    (test_suite_name test_name file_name : String) (run : List Stmt) :
    List TestInfo :=
  Framework.registerTest tests
    { test_suite_name := test_suite_name
    , test_name := test_name
    , file_name := file_name
    , run := run }

/-- Modelled from the spec: the per-test portion of the run
(`CreateAndRunTest` calling `StartTest`, the body, `EndTest`; the latter two
are defined in a source file not among the given sources).  Per the spec, the
engine constructs the instance, notifies the reporter of test start, runs the
body, notifies test end with the outcome, and updates the run summary from
the per-test outcome.  The in-flight outcome starts as success for each
test. -/
def Framework.runTest (fw : Framework) (t : TestInfo) : Framework × List Event :=
  let fwStart := { fw with current_result := TestResult.kSuccess }
  let (fwBody, bodyEvents, _) := runStmts fwStart t.run
  let summary := fwBody.run_tests_summary
  let summary' :=
    match fwBody.current_result with
    | TestResult.kSuccess => { summary with passed_tests := summary.passed_tests + 1 }
    | TestResult.kFailure => { summary with failed_tests := summary.failed_tests + 1 }
  ( { fwBody with run_tests_summary := summary' }
  , Event.testStart t.test_suite_name t.test_name t.file_name
      :: bodyEvents
      ++ [Event.testEnd t.test_suite_name t.test_name t.file_name
            fwBody.current_result] )

/-- Runs the registered tests from the head of the registry to the tail,
concatenating the emitted events. -/
def Framework.runTests : Framework → List TestInfo → Framework × List Event
  | fw, [] => (fw, [])
  | fw, t :: ts =>
      let (fw1, events1) := fw.runTest t
      let (fw2, events2) := fw1.runTests ts
      (fw2, events1 ++ events2)

/-- Modelled from the spec: `Framework::RunAllTests` is declared in the
header but defined in a source file not among the given sources.  Per the
spec and the header comment, it resets the run summary, runs every
registered test from head to tail, and returns 0 if all tests passed or a
nonzero status if there were any failures. -/
def Framework.runAllTests (fw : Framework) (tests : List TestInfo) :
    Int × Framework × List Event :=
  let fw0 := { fw with run_tests_summary := { passed_tests := 0, failed_tests := 0 } }
  let (fw1, events) := fw0.runTests tests
  let status : Int := if fw1.run_tests_summary.failed_tests = 0 then 0 else 1
  (status, { fw1 with exit_status := status }, events)

/-- `std::strcmp` on null-terminated strings, embedded on the strings'
contents: a string is represented by the list of its bytes before the
terminating NUL.  Compares byte-wise, returning a negative, zero or positive
value exactly as `strcmp` does. -/
def strcmp : List Nat → List Nat → Int
  | [], [] => 0
  | [], _ :: _ => -1
  | _ :: _, [] => 1
  | a :: as, b :: bs =>
      if a < b then -1 else if b < a then 1 else strcmp as bs

/-- The lambda of `_PW_TEST_STREQ` applied to two `const char*` operands:
`std::strcmp(l, r) == 0`.  Pointers are modelled as addresses `Nat`, and
`mem` maps each address to the byte contents of the null-terminated string
stored there. -/
def pwStreqPred (mem : Nat → List Nat) (l r : Nat) : Bool :=
  strcmp (mem l) (mem r) == 0

/-- The lambda of `_PW_TEST_STRNE`: `std::strcmp(l, r) != 0`. -/
def pwStrnePred (mem : Nat → List Nat) (l r : Nat) : Bool :=
  strcmp (mem l) (mem r) != 0

/-- `_PW_TEST_STREQ(expect_or_assert, lhs, rhs)` evaluation step: the lhs and
rhs pointers, the strcmp-equality lambda, and the string "equals". -/
def pwTestStreq (fw : Framework) (mem : Nat → List Nat) (l r : Nat)
    (lhsStr rhsStr : String) (line : Nat) : Bool × Framework × List Event :=
  fw.currentTestExpect (pwStreqPred mem) l r
    (expectationExpression lhsStr "equals" rhsStr) line

/-- `_PW_TEST_STRNE(expect_or_assert, lhs, rhs)` evaluation step. -/
def pwTestStrne (fw : Framework) (mem : Nat → List Nat) (l r : Nat)
    (lhsStr rhsStr : String) (line : Nat) : Bool × Framework × List Event :=
  fw.currentTestExpect (pwStrnePred mem) l r
    (expectationExpression lhsStr "does not equal" rhsStr) line

/-- `Framework::kTestMemoryPoolSizeBytes`: the fixed capacity of the shared
construction memory region. -/
def kTestMemoryPoolSizeBytes : Nat := 8192

/-- `sizeof(memory_pool_)`: the pool is
`std::aligned_storage_t<kTestMemoryPoolSizeBytes, alignof(std::max_align_t)>`,
whose size is the requested 8192 bytes (already a multiple of the maximal
alignment). -/
def sizeofMemoryPool : Nat := kTestMemoryPoolSizeBytes

/-- The static assertion guarding `Framework::CreateAndRunTest<TestInstance>`:
instantiating it compiles exactly when
`sizeof(TestInstance) <= sizeof(memory_pool_)`.  `sizeofTestInstance` is the
size in bytes of the test-instance (fixture) type. -/
def createAndRunTestCompiles (sizeofTestInstance : Nat) : Bool :=
  sizeofTestInstance ≤ sizeofMemoryPool

/-- `sizeof` of the C string literal `PW_STRINGIFY(name)` produces: the
number of characters plus one for the terminating NUL. -/
def sizeofStringLiteral (s : String) : Nat := s.length + 1

/-- The static assertions at the top of the `_PW_TEST` declaration macro:
the declaration compiles exactly when
`sizeof(PW_STRINGIFY(test_suite_name)) > 1` and
`sizeof(PW_STRINGIFY(test_name)) > 1`. -/
def pwTestDeclCompiles (test_suite_name test_name : String) : Bool :=
  decide (sizeofStringLiteral test_suite_name > 1) &&
    decide (sizeofStringLiteral test_name > 1)

/-- Whether an event is an expectation outcome reporting a failure. -/
def Event.isFailedExpectation : Event → Bool
  | Event.expectationResult _ _ success => !success
  | _ => false

/-- Whether any event of a run reports a failed expectation. -/
def hasFailedExpectation (events : List Event) : Bool :=
  events.any Event.isFailedExpectation

/-- Whether an event is a test-start notification. -/
def Event.isStart : Event → Bool
  | Event.testStart _ _ _ => true
  | _ => false

/-- Whether an event is the start notification of the test named
(`suite`, `name`). -/
def Event.isStartOf (suite name : String) : Event → Bool
  | Event.testStart s n _ => s == suite && n == name
  | _ => false

/-- Number of test-start notifications for the test named (`suite`, `name`)
among the events of a run. -/
def countStartsOf (suite name : String) (events : List Event) : Nat :=
  events.countP (Event.isStartOf suite name)

/-! Theorems. -/

/-- C3: for every predicate, operand pair, description string and source
line, `Framework::CurrentTestExpect` applies `expectation(lhs, rhs)`,
notifies the Event Reporter of the outcome with that description, line and
success flag, marks the currently running test's accumulated outcome as
failed when the predicate returned false (and leaves it unchanged when it
returned true), and returns exactly the predicate's boolean result. -/
theorem C3_currentTestExpect_applies_reports_marks_returns
    {Lhs Rhs : Type} (fw : Framework) (expectation : Lhs → Rhs → Bool)
    (lhs : Lhs) (rhs : Rhs) (expression : String) (line : Nat) :
    (fw.currentTestExpect expectation lhs rhs expression line).1 =
        expectation lhs rhs ∧
      (fw.currentTestExpect expectation lhs rhs expression line).2.2 =
        [Event.expectationResult expression line (expectation lhs rhs)] ∧
      (fw.currentTestExpect expectation lhs rhs expression line).2.1.current_result =
        (if expectation lhs rhs then fw.current_result else TestResult.kFailure) ∧
      (fw.currentTestExpect expectation lhs rhs expression line).2.1.run_tests_summary =
        fw.run_tests_summary := by
  simp [Framework.currentTestExpect, Framework.expectationResult]

/-- C10: the boolean-truth and boolean-falsity checks depend only on the
boolean conversion of their single operand: the `_PW_TEST_TRUE` and
`_PW_TEST_FALSE` lambdas ignore their synthesized second operand, and the
checks succeed exactly when the conversion is true (respectively false). -/
theorem C10_bool_checks_ignore_second_operand
    {T : Type} (toBool : T → Bool) (arg : T) (b₁ b₂ : Bool)
    (fw : Framework) (exprStr : String) (line : Nat) :
    pwTestTruePred toBool arg b₁ = pwTestTruePred toBool arg b₂ ∧
      pwTestFalsePred toBool arg b₁ = pwTestFalsePred toBool arg b₂ ∧
      ((pwTestTrue fw toBool arg exprStr line).1 = true ↔ toBool arg = true) ∧
      ((pwTestFalse fw toBool arg exprStr line).1 = true ↔ toBool arg = false) := by
  refine ⟨rfl, rfl, ?_, ?_⟩ <;>
    simp [pwTestTrue, pwTestFalse, pwTestTruePred, pwTestFalsePred,
      Framework.currentTestExpect, Framework.expectationResult]

/-- C4: a test-instance type whose size exceeds the capacity of the shared
construction memory region fails the static assertion guarding
`CreateAndRunTest`, so it cannot be built; conversely any instantiation that
compiles fits within the pool. -/
theorem C4_oversized_fixture_rejected_at_build :
    (∀ sizeofTestInstance : Nat,
        kTestMemoryPoolSizeBytes < sizeofTestInstance →
          createAndRunTestCompiles sizeofTestInstance = false) ∧
      (∀ sizeofTestInstance : Nat,
        createAndRunTestCompiles sizeofTestInstance = true →
          sizeofTestInstance ≤ sizeofMemoryPool) := by
  constructor <;> intro n h <;>
    simp [createAndRunTestCompiles, sizeofMemoryPool, kTestMemoryPoolSizeBytes] at * <;>
    omega

/-- Witness for C4 at a concrete oversized fixture (8193 bytes). -/
theorem C4_witness : createAndRunTestCompiles 8193 = false :=
  C4_oversized_fixture_rejected_at_build.1 8193 (by decide)

/-- C5: a test declaration compiles exactly when both the suite name and the
case name are non-empty; an empty name fails the static assertions of the
`_PW_TEST` macro at compile time. -/
theorem C5_nonempty_names_required
    (test_suite_name test_name : String) :
    pwTestDeclCompiles test_suite_name test_name = true ↔
      (test_suite_name ≠ "" ∧ test_name ≠ "") := by
  have h : ∀ s : String, s ≠ "" ↔ 0 < s.length := by
    intro s
    cases s with
    | mk data => cases data <;> simp [String.length, String.ext_iff]
  simp only [pwTestDeclCompiles, sizeofStringLiteral, Bool.and_eq_true,
    decide_eq_true_eq]
  rw [h, h]
  omega


/-- `strcmp` returns zero exactly when the two byte sequences are equal. -/
theorem strcmp_eq_zero_iff (a b : List Nat) : strcmp a b = 0 ↔ a = b := by
  induction a generalizing b with
  | nil => cases b <;> simp [strcmp]
  | cons x xs ih =>
    cases b with
    | nil => simp [strcmp]
    | cons y ys =>
      simp only [strcmp]
      split_ifs with h₁ h₂
      · constructor
        · intro h
          exact absurd h (by decide)
        · intro h
          injection h with hx hxs
          omega
      · constructor
        · intro h
          exact absurd h (by decide)
        · intro h
          injection h with hx hxs
          omega
      · have hxy : x = y := by omega
        subst hxy
        simp [ih]

/-- C6: the string-equality and string-inequality checks compare the
null-terminated strings byte-wise via `strcmp`, succeeding exactly when the
character sequences are equal (respectively unequal), not by pointer
identity: two distinct pointers to equal character sequences compare
equal. -/
theorem C6_string_checks_compare_bytewise
    (mem : Nat → List Nat) (p q : Nat) (fw : Framework)
    (lhsStr rhsStr : String) (line : Nat) :
    (pwStreqPred mem p q = true ↔ mem p = mem q) ∧
      (pwStrnePred mem p q = true ↔ mem p ≠ mem q) ∧
      (p ≠ q → mem p = mem q →
        (pwTestStreq fw mem p q lhsStr rhsStr line).1 = true) := by
  refine ⟨?_, ?_, ?_⟩
  · simp [pwStreqPred, strcmp_eq_zero_iff]
  · simp [pwStrnePred, strcmp_eq_zero_iff]
  · intro _ hEq
    simp [pwTestStreq, Framework.currentTestExpect, Framework.expectationResult,
      pwStreqPred, strcmp_eq_zero_iff, hEq]

/-- Witness for C6: two distinct pointers (0 and 1) whose memory holds the
same bytes compare equal under the string-equality check. -/
theorem C6_witness :
    (pwTestStreq Framework.init (fun _ => [102, 111, 111]) 0 1 "a" "b" 5).1 = true :=
  (C6_string_checks_compare_bytewise (fun _ => [102, 111, 111]) 0 1
    Framework.init "a" "b" 5).2.2 (by decide) rfl

/-- Equation lemma: running an empty body leaves the state unchanged and
emits nothing. -/
theorem runStmts_nil (fw : Framework) : runStmts fw [] = (fw, [], []) := rfl

/-- Equation lemma: an `action` statement executes and the body continues. -/
theorem runStmts_action (fw : Framework) (tag : Nat) (rest : List Stmt) :
    runStmts fw (Stmt.action tag :: rest) =
      ((runStmts fw rest).1, (runStmts fw rest).2.1,
        tag :: (runStmts fw rest).2.2) := by
  rcases hr : runStmts fw rest with ⟨a, b, c⟩
  simp [runStmts, hr]

/-- Equation lemma: a non-fatal check reports its outcome and the body
continues from the updated state whatever the outcome was. -/
theorem runStmts_expect_check (fw : Framework) (passes : Bool)
    (e : String) (l : Nat) (rest : List Stmt) :
    runStmts fw (Stmt.check Strength.expect passes e l :: rest) =
      ((runStmts (fw.expectationResult e l passes).1 rest).1,
        (fw.expectationResult e l passes).2 ++
          (runStmts (fw.expectationResult e l passes).1 rest).2.1,
        (runStmts (fw.expectationResult e l passes).1 rest).2.2) := by
  rcases hr : runStmts (fw.expectationResult e l passes).1 rest with ⟨a, b, c⟩
  simp [runStmts, Framework.currentTestExpect, checkPred, hr]

/-- Equation lemma: a passing fatal check reports its outcome and the body
continues from the updated state. -/
theorem runStmts_assert_check_true (fw : Framework)
    (e : String) (l : Nat) (rest : List Stmt) :
    runStmts fw (Stmt.check Strength.assert true e l :: rest) =
      ((runStmts (fw.expectationResult e l true).1 rest).1,
        (fw.expectationResult e l true).2 ++
          (runStmts (fw.expectationResult e l true).1 rest).2.1,
        (runStmts (fw.expectationResult e l true).1 rest).2.2) := by
  rcases hr : runStmts (fw.expectationResult e l true).1 rest with ⟨a, b, c⟩
  simp [runStmts, Framework.currentTestExpect, checkPred, hr]

/-- Equation lemma: a failing fatal check reports its outcome and returns
from the body immediately, executing nothing further. -/
theorem runStmts_assert_check_false (fw : Framework)
    (e : String) (l : Nat) (rest : List Stmt) :
    runStmts fw (Stmt.check Strength.assert false e l :: rest) =
      ((fw.expectationResult e l false).1,
        (fw.expectationResult e l false).2, []) := by
  simp [runStmts, Framework.currentTestExpect, checkPred]

/-- A body of plain (non-check) statements executes completely, emitting no
events and leaving the state unchanged. -/
theorem runStmts_actions (fw : Framework) (tags : List Nat) :
    runStmts fw (tags.map Stmt.action) = (fw, [], tags) := by
  induction tags generalizing fw with
  | nil => rfl
  | cons a as ih => simp [List.map_cons, runStmts_action, ih]

/-- Running a test body never touches the run summary or the exit status. -/
theorem runStmts_preserves (fw : Framework) (stmts : List Stmt) :
    (runStmts fw stmts).1.run_tests_summary = fw.run_tests_summary ∧
      (runStmts fw stmts).1.exit_status = fw.exit_status := by
  induction stmts generalizing fw with
  | nil => simp [runStmts_nil]
  | cons s rest ih =>
    cases s with
    | action tag => simpa [runStmts_action] using ih fw
    | check strength passes e l =>
      cases strength with
      | expect =>
          rw [runStmts_expect_check]
          simpa [Framework.expectationResult] using ih _
      | assert =>
          cases passes with
          | false => simp [runStmts_assert_check_false, Framework.expectationResult]
          | true =>
              rw [runStmts_assert_check_true]
              simpa [Framework.expectationResult] using ih _

/-- After running a body, the in-flight outcome is failure exactly when it
already was failure or some reported expectation failed. -/
theorem runStmts_current_result (fw : Framework) (stmts : List Stmt) :
    (runStmts fw stmts).1.current_result =
      (if hasFailedExpectation (runStmts fw stmts).2.1 then TestResult.kFailure
        else fw.current_result) := by
  induction stmts generalizing fw with
  | nil => simp [runStmts_nil, hasFailedExpectation]
  | cons s rest ih =>
    cases s with
    | action tag => simpa [runStmts_action] using ih fw
    | check strength passes e l =>
      cases strength with
      | expect =>
          rw [runStmts_expect_check]
          cases passes <;>
            simp [Framework.expectationResult, hasFailedExpectation,
              Event.isFailedExpectation, ih]
      | assert =>
          cases passes with
          | false =>
              simp [runStmts_assert_check_false, Framework.expectationResult,
                hasFailedExpectation, Event.isFailedExpectation]
          | true =>
              rw [runStmts_assert_check_true]
              simp [Framework.expectationResult, hasFailedExpectation,
                Event.isFailedExpectation, ih]

/-- A test body emits only expectation-outcome events. -/
theorem runStmts_events_are_expectations (fw : Framework) (stmts : List Stmt) :
    ∀ ev ∈ (runStmts fw stmts).2.1,
      ∃ ex l s, ev = Event.expectationResult ex l s := by
  induction stmts generalizing fw with
  | nil => simp [runStmts_nil]
  | cons s rest ih =>
    cases s with
    | action tag => simpa [runStmts_action] using ih fw
    | check strength passes e l =>
      cases strength with
      | expect =>
          rw [runStmts_expect_check]
          intro ev hev
          simp [Framework.expectationResult] at hev
          rcases hev with h | h
          · exact ⟨e, l, passes, h⟩
          · exact ih _ ev h
      | assert =>
          cases passes with
          | false =>
              intro ev hev
              simp [runStmts_assert_check_false,
                Framework.expectationResult] at hev
              exact ⟨e, l, false, hev⟩
          | true =>
              rw [runStmts_assert_check_true]
              intro ev hev
              simp [Framework.expectationResult] at hev
              rcases hev with h | h
              · exact ⟨e, l, true, h⟩
              · exact ih _ ev h

/-- The events a body emits and the statements it executes do not depend on
the framework state it starts from. -/
theorem runStmts_trace_independent (fw fw' : Framework) (stmts : List Stmt) :
    (runStmts fw stmts).2 = (runStmts fw' stmts).2 := by
  induction stmts generalizing fw fw' with
  | nil => simp [runStmts_nil]
  | cons s rest ih =>
    cases s with
    | action tag => simp [runStmts_action, ih fw fw']
    | check strength passes e l =>
      cases strength with
      | expect =>
          rw [runStmts_expect_check, runStmts_expect_check]
          simp [Framework.expectationResult]
          exact ⟨congrArg Prod.fst (ih _ _), congrArg Prod.snd (ih _ _)⟩
      | assert =>
          cases passes with
          | false => simp [runStmts_assert_check_false, Framework.expectationResult]
          | true =>
              rw [runStmts_assert_check_true, runStmts_assert_check_true]
              simp [Framework.expectationResult]
              exact ⟨congrArg Prod.fst (ih _ _), congrArg Prod.snd (ih _ _)⟩

/-- A test-start notification is not a failed expectation. -/
theorem hasFailedExpectation_cons_start (s n f : String) (evs : List Event) :
    hasFailedExpectation (Event.testStart s n f :: evs) =
      hasFailedExpectation evs := by
  simp [hasFailedExpectation, Event.isFailedExpectation]

/-- A test-end notification is not a failed expectation. -/
theorem hasFailedExpectation_append_end (evs : List Event)
    (s n f : String) (r : TestResult) :
    hasFailedExpectation (evs ++ [Event.testEnd s n f r]) =
      hasFailedExpectation evs := by
  simp [hasFailedExpectation, Event.isFailedExpectation]

/-- Failed expectations distribute over concatenated event streams. -/
theorem hasFailedExpectation_append (evs evs' : List Event) :
    hasFailedExpectation (evs ++ evs') =
      (hasFailedExpectation evs || hasFailedExpectation evs') := by
  simp [hasFailedExpectation]

/-- The failed-test count after one test increments exactly when the test's
events contain a failed expectation. -/
theorem runTest_failed_tests (fw : Framework) (t : TestInfo) :
    (fw.runTest t).1.run_tests_summary.failed_tests =
      fw.run_tests_summary.failed_tests +
        (if hasFailedExpectation (fw.runTest t).2 then 1 else 0) := by
  rcases hr : runStmts { fw with current_result := TestResult.kSuccess } t.run
    with ⟨fwB, evs, tags⟩
  have hcr := runStmts_current_result
    { fw with current_result := TestResult.kSuccess } t.run
  have hp := runStmts_preserves
    { fw with current_result := TestResult.kSuccess } t.run
  rw [hr] at hcr hp
  simp at hcr hp
  simp only [Framework.runTest, hr]
  simp only [hasFailedExpectation_cons_start, hasFailedExpectation_append_end]
  rw [hcr]
  by_cases hfe : hasFailedExpectation evs = true <;> simp [hfe, hp.1]

/-- One test emits exactly one event satisfying any predicate that holds
only on test-start notifications, namely its own start notification. -/
theorem runTest_countP (fw : Framework) (t : TestInfo) (p : Event → Bool)
    (hend : ∀ s n f r, p (Event.testEnd s n f r) = false)
    (hexp : ∀ ex l s, p (Event.expectationResult ex l s) = false) :
    (fw.runTest t).2.countP p =
      (if p (Event.testStart t.test_suite_name t.test_name t.file_name)
        then 1 else 0) := by
  rcases hr : runStmts { fw with current_result := TestResult.kSuccess } t.run
    with ⟨fwB, evs, tags⟩
  have hzero : evs.countP p = 0 := by
    rw [List.countP_eq_zero]
    intro ev hev
    have hmem : ev ∈ (runStmts { fw with current_result := TestResult.kSuccess }
        t.run).2.1 := by
      rw [hr]
      exact hev
    rcases runStmts_events_are_expectations _ _ ev hmem with ⟨ex, l, s, rfl⟩
    simp [hexp]
  simp only [Framework.runTest, hr]
  simp [List.countP_cons, List.countP_append, hzero, hend]

/-- A run emits one test-start notification per registry entry matching the
predicate, in particular counting matching entries. -/
theorem runTests_countP (fw : Framework) (ts : List TestInfo) (p : Event → Bool)
    (hend : ∀ s n f r, p (Event.testEnd s n f r) = false)
    (hexp : ∀ ex l s, p (Event.expectationResult ex l s) = false) :
    (fw.runTests ts).2.countP p =
      ts.countP (fun t =>
        p (Event.testStart t.test_suite_name t.test_name t.file_name)) := by
  induction ts generalizing fw with
  | nil => simp [Framework.runTests]
  | cons t ts ih =>
    rcases h1 : fw.runTest t with ⟨fw1, evs1⟩
    have hc := runTest_countP fw t p hend hexp
    rw [h1] at hc
    rcases h2 : fw1.runTests ts with ⟨fw2, evs2⟩
    have ihh := ih fw1
    rw [h2] at ihh
    simp only [Framework.runTests, h1, h2]
    simp only [] at hc ihh
    simp [List.countP_append, List.countP_cons, hc, ihh]
    by_cases hs : p (Event.testStart t.test_suite_name t.test_name t.file_name) = true <;>
      (simp [hs]; try omega)

/-- Every registered test's start is reported exactly once per run,
regardless of the outcomes of the test bodies. -/
theorem runTests_start_count (fw : Framework) (ts : List TestInfo) :
    (fw.runTests ts).2.countP Event.isStart = ts.length := by
  have h := runTests_countP fw ts Event.isStart
    (by intro s n f r; rfl) (by intro ex l s; rfl)
  simpa [Event.isStart] using h

/-- The number of start notifications for a given (suite, case) name equals
the number of matching registry entries. -/
theorem runTests_countStartsOf (fw : Framework) (ts : List TestInfo)
    (suite name : String) :
    countStartsOf suite name (fw.runTests ts).2 =
      ts.countP (fun t =>
        t.test_suite_name == suite && t.test_name == name) := by
  have h := runTests_countP fw ts (Event.isStartOf suite name)
    (by intro s n f r; rfl) (by intro ex l s; rfl)
  simpa [countStartsOf, Event.isStartOf] using h

/-- The failed-test count of a run is zero exactly when it started at zero
and no expectation reported during the run failed. -/
theorem runTests_failed_eq_zero (fw : Framework) (ts : List TestInfo) :
    ((fw.runTests ts).1.run_tests_summary.failed_tests = 0) ↔
      (fw.run_tests_summary.failed_tests = 0 ∧
        hasFailedExpectation (fw.runTests ts).2 = false) := by
  induction ts generalizing fw with
  | nil => simp [Framework.runTests, hasFailedExpectation]
  | cons t ts ih =>
    rcases h1 : fw.runTest t with ⟨fw1, evs1⟩
    rcases h2 : fw1.runTests ts with ⟨fw2, evs2⟩
    have hft := runTest_failed_tests fw t
    rw [h1] at hft
    have ihh := ih fw1
    rw [h2] at ihh
    simp only [Framework.runTests, h1, h2]
    simp only [] at hft ihh
    rw [hasFailedExpectation_append]
    rw [ihh, hft]
    by_cases ha : hasFailedExpectation evs1 = true <;>
      by_cases hb : hasFailedExpectation evs2 = true <;>
      simp [ha, hb]

/-- The portion of the framework state a test changes depends only on its
incoming run summary, never on leftover in-flight state: the events and the
summary are functions of the entry and the incoming summary. -/
theorem runTest_independent (fw fw' : Framework) (t : TestInfo)
    (h : fw.run_tests_summary = fw'.run_tests_summary) :
    (fw.runTest t).2 = (fw'.runTest t).2 ∧
      (fw.runTest t).1.run_tests_summary = (fw'.runTest t).1.run_tests_summary := by
  rcases hr : runStmts { fw with current_result := TestResult.kSuccess } t.run
    with ⟨fwB, evs, tags⟩
  rcases hr' : runStmts { fw' with current_result := TestResult.kSuccess } t.run
    with ⟨fwB', evs', tags'⟩
  have htr := runStmts_trace_independent
    { fw with current_result := TestResult.kSuccess }
    { fw' with current_result := TestResult.kSuccess } t.run
  rw [hr, hr'] at htr
  have hcr := runStmts_current_result
    { fw with current_result := TestResult.kSuccess } t.run
  have hcr' := runStmts_current_result
    { fw' with current_result := TestResult.kSuccess } t.run
  rw [hr] at hcr
  rw [hr'] at hcr'
  have hp := runStmts_preserves
    { fw with current_result := TestResult.kSuccess } t.run
  have hp' := runStmts_preserves
    { fw' with current_result := TestResult.kSuccess } t.run
  rw [hr] at hp
  rw [hr'] at hp'
  simp at htr hcr hcr' hp hp'
  obtain ⟨hev, htg⟩ := htr
  subst hev
  simp only [Framework.runTest, hr, hr']
  rw [hcr, hcr', hp.1, hp'.1, h]
  by_cases hfe : hasFailedExpectation evs = true <;> simp [hfe]

/-- Running the registry is determined by the incoming run summary: the
events of the run are identical and the final summaries agree. -/
theorem runTests_independent (fw fw' : Framework) (ts : List TestInfo)
    (h : fw.run_tests_summary = fw'.run_tests_summary) :
    (fw.runTests ts).2 = (fw'.runTests ts).2 ∧
      (fw.runTests ts).1.run_tests_summary =
        (fw'.runTests ts).1.run_tests_summary := by
  induction ts generalizing fw fw' with
  | nil => simpa [Framework.runTests] using h
  | cons t ts ih =>
    rcases h1 : fw.runTest t with ⟨fw1, evs1⟩
    rcases h1' : fw'.runTest t with ⟨fw1', evs1'⟩
    have hrt := runTest_independent fw fw' t h
    rw [h1, h1'] at hrt
    simp only [] at hrt
    have ihh := ih fw1 fw1' hrt.2
    rcases h2 : fw1.runTests ts with ⟨fw2, evs2⟩
    rcases h2' : fw1'.runTests ts with ⟨fw2', evs2'⟩
    rw [h2, h2'] at ihh
    simp only [] at ihh
    simp only [Framework.runTests, h1, h1', h2, h2']
    simp [hrt.1, ihh.1, ihh.2]

/-- `RunAllTests` is determined by the registry alone: its status, final
summary and events do not depend on the framework state it starts from. -/
theorem runAllTests_independent (fw fw' : Framework) (tests : List TestInfo) :
    (fw.runAllTests tests).1 = (fw'.runAllTests tests).1 ∧
      (fw.runAllTests tests).2.1.run_tests_summary =
        (fw'.runAllTests tests).2.1.run_tests_summary ∧
      (fw.runAllTests tests).2.2 = (fw'.runAllTests tests).2.2 := by
  have h := runTests_independent
    { fw with run_tests_summary := { passed_tests := 0, failed_tests := 0 } }
    { fw' with run_tests_summary := { passed_tests := 0, failed_tests := 0 } }
    tests rfl
  rcases hr : Framework.runTests
      { fw with run_tests_summary := { passed_tests := 0, failed_tests := 0 } }
      tests with ⟨fw1, evs⟩
  rcases hr' : Framework.runTests
      { fw' with run_tests_summary := { passed_tests := 0, failed_tests := 0 } }
      tests with ⟨fw1', evs'⟩
  rw [hr, hr'] at h
  simp only [] at h
  simp only [Framework.runAllTests, hr, hr']
  simp [h.1, h.2]

/-- The start notifications of a full `RunAllTests` invocation count the
matching registry entries. -/
theorem runAllTests_countStartsOf (fw : Framework) (tests : List TestInfo)
    (suite name : String) :
    countStartsOf suite name (fw.runAllTests tests).2.2 =
      tests.countP (fun t =>
        t.test_suite_name == suite && t.test_name == name) := by
  rcases hr : Framework.runTests
      { fw with run_tests_summary := { passed_tests := 0, failed_tests := 0 } }
      tests with ⟨fw1, evs⟩
  have h := runTests_countStartsOf
    { fw with run_tests_summary := { passed_tests := 0, failed_tests := 0 } }
    tests suite name
  rw [hr] at h
  simpa [Framework.runAllTests, hr] using h

/-- C1: `RunAllTests` returns 0 exactly when every expectation evaluated
(and therefore reported) across every test in the run succeeded; if any
expectation in any test failed, the returned status is nonzero. -/
theorem C1_runAllTests_zero_iff_all_expectations_pass
    (fw : Framework) (tests : List TestInfo) :
    (fw.runAllTests tests).1 = 0 ↔
      hasFailedExpectation (fw.runAllTests tests).2.2 = false := by
  rcases hr : Framework.runTests
      { fw with run_tests_summary := { passed_tests := 0, failed_tests := 0 } }
      tests with ⟨fw1, evs⟩
  have h := runTests_failed_eq_zero
    { fw with run_tests_summary := { passed_tests := 0, failed_tests := 0 } }
    tests
  rw [hr] at h
  simp only [] at h
  simp only [Framework.runAllTests, hr]
  simp at h
  by_cases hz : fw1.run_tests_summary.failed_tests = 0 <;> simp [hz] at h ⊢ <;>
    exact h

/-- C2: within a test body, a failed non-fatal check reports the event and
marks the test failed while the statements after it still execute, whereas a
failed fatal check reports the event, marks the test failed and returns from
the body immediately, so none of the statements after it execute; the run
itself still starts every registered test that follows. -/
theorem C2_expect_continues_assert_returns
    (fw : Framework) (expression : String) (line : Nat) (tags : List Nat)
    (t : TestInfo) (ts : List TestInfo) :
    (runStmts fw
        (Stmt.check Strength.expect false expression line :: tags.map Stmt.action) =
      ({ fw with current_result := TestResult.kFailure },
        [Event.expectationResult expression line false], tags)) ∧
    (runStmts fw
        (Stmt.check Strength.assert false expression line :: tags.map Stmt.action) =
      ({ fw with current_result := TestResult.kFailure },
        [Event.expectationResult expression line false], [])) ∧
    ((fw.runTests (t :: ts)).2.countP Event.isStart = 1 + ts.length) := by
  refine ⟨?_, ?_, ?_⟩
  · rw [runStmts_expect_check]
    simp [Framework.expectationResult, runStmts_actions]
  · rw [runStmts_assert_check_false]
    simp [Framework.expectationResult]
  · rw [runTests_start_count]
    simp [Nat.add_comm]

/-- C7: constructing a `TestInfo` links it at the head of the registry, and
no deduplication is performed: constructing two entries with identical names
leaves both in the registry, and a run starts both. -/
theorem C7_registration_head_insert_no_dedup (tests : List TestInfo)
    (suite name file : String) (body : List Stmt) :
    (TestInfo.construct tests suite name file body =
      { test_suite_name := suite, test_name := name, file_name := file,
        run := body } :: tests) ∧
    ((TestInfo.construct (TestInfo.construct tests suite name file body)
          suite name file body).count
        { test_suite_name := suite, test_name := name, file_name := file,
          run := body } =
      tests.count
        { test_suite_name := suite, test_name := name, file_name := file,
          run := body } + 2) ∧
    (countStartsOf suite name
        (Framework.init.runAllTests
          (TestInfo.construct (TestInfo.construct tests suite name file body)
            suite name file body)).2.2 =
      countStartsOf suite name (Framework.init.runAllTests tests).2.2 + 2) := by
  refine ⟨rfl, ?_, ?_⟩
  · simp [TestInfo.construct, Framework.registerTest, List.count_cons]
  · rw [runAllTests_countStartsOf, runAllTests_countStartsOf]
    simp [TestInfo.construct, Framework.registerTest, List.countP_cons]

/-- C8: the run summary is reset at the start of every `RunAllTests`
invocation: calling it a second time (from whatever state a first call left
behind) yields exactly the totals of a fresh run over the same registry, and
the same status — nothing accumulates across invocations. -/
theorem C8_second_run_yields_fresh_summary (fw : Framework)
    (tests : List TestInfo) :
    (((fw.runAllTests tests).2.1.runAllTests tests).2.1.run_tests_summary =
      (Framework.init.runAllTests tests).2.1.run_tests_summary) ∧
    (((fw.runAllTests tests).2.1.runAllTests tests).1 =
      (Framework.init.runAllTests tests).1) := by
  have h := runAllTests_independent ((fw.runAllTests tests).2.1)
    Framework.init tests
  exact ⟨h.2.1, h.1⟩

/-- C9: the fatal form performs exactly the same single expectation
evaluation as the non-fatal form — after the check itself the framework
state and the reported events are identical, and exactly one event is
reported — and differs only by returning early when the result is false; on
a passing check the two forms are behaviorally identical under any
continuation of the body. -/
theorem C9_assert_equals_expect_plus_early_return
    (fw : Framework) (passes : Bool) (expression : String) (line : Nat)
    (rest : List Stmt) :
    ((runStmts fw [Stmt.check Strength.assert passes expression line]).1 =
        (runStmts fw [Stmt.check Strength.expect passes expression line]).1) ∧
    ((runStmts fw [Stmt.check Strength.assert passes expression line]).2.1 =
        (runStmts fw [Stmt.check Strength.expect passes expression line]).2.1) ∧
    ((runStmts fw [Stmt.check Strength.assert passes expression line]).2.1 =
        [Event.expectationResult expression line passes]) ∧
    (runStmts fw (Stmt.check Strength.assert true expression line :: rest) =
        runStmts fw (Stmt.check Strength.expect true expression line :: rest)) := by
  refine ⟨?_, ?_, ?_, ?_⟩
  · cases passes with
    | false =>
        rw [runStmts_assert_check_false, runStmts_expect_check]
        simp [Framework.expectationResult, runStmts_nil]
    | true =>
        rw [runStmts_assert_check_true, runStmts_expect_check]
  · cases passes with
    | false =>
        rw [runStmts_assert_check_false, runStmts_expect_check]
        simp [Framework.expectationResult, runStmts_nil]
    | true =>
        rw [runStmts_assert_check_true, runStmts_expect_check]
  · cases passes with
    | false =>
        rw [runStmts_assert_check_false]
        simp [Framework.expectationResult]
    | true =>
        rw [runStmts_assert_check_true]
        simp [Framework.expectationResult, runStmts_nil]
  · rw [runStmts_assert_check_true, runStmts_expect_check]

end PwUnitTest
